import Mathlib

/-!
Verification of the core pipelines of the hiring-portal backend (`app.py`):
the application-evaluation pipeline (`evaluate_application`), the guarded
NL-to-SQL translator (`translate_to_sql`, `validate_and_execute_sql`,
`nlp_to_sql`) and their string-processing helpers.

Python strings are modelled as Lean `String` (a list of unicode scalar
characters, matching Python's code-point view for the ASCII data handled
here).  External collaborators (the record store, the generation client,
the remote query executor) are modelled as explicit inputs: one record of
a "world" describes what each collaborator returns during one request.
-/

/-! ### Python string primitives -/

/-- One step bound for `pyRemoveF`: fuelled, structurally recursive model of
Python `s.replace(pat, '')` (leftmost, non-overlapping occurrences removed).
The fuel is always instantiated with `s.length`, which suffices because each
step consumes at least one character. -/
def pyRemoveF (pat : List Char) : Nat → List Char → List Char
  | _, [] => []
  | 0, l => l
  | fuel + 1, c :: rest =>
    if pat.isPrefixOf (c :: rest) then
      pyRemoveF pat fuel (rest.drop (pat.length - 1))
    else
      c :: pyRemoveF pat fuel rest

/-- Python `s.replace(pat, '')` on character lists. -/
def pyRemove (pat l : List Char) : List Char := pyRemoveF pat l.length l

/-- Python's default `str.strip()` whitespace class (ASCII part). -/
def pws (c : Char) : Bool :=
  c = ' ' || c = '\t' || c = '\n' || c = '\r' || c = '\x0b' || c = '\x0c'

/-- Python `str.strip()` on character lists. -/
def trimChars (l : List Char) : List Char :=
  ((l.dropWhile pws).reverse.dropWhile pws).reverse

/-- Substring test: does `pat` occur contiguously inside `l`?  Models the
Python `pat in s` operator. -/
def containsSeq (pat : List Char) : List Char → Bool
  | [] => pat.isEmpty
  | c :: rest => pat.isPrefixOf (c :: rest) || containsSeq pat rest

/-- The backtick character (by code point). -/
def btick : Char := '\x60'

/-- `pat` occurs contiguously inside `l`. -/
def occursIn (pat l : List Char) : Prop := ∃ u v, l = u ++ pat ++ v

/-- Length of the leading run of the character `b`. -/
def leadRun (b : Char) (l : List Char) : Nat := (l.takeWhile (fun c => c = b)).length

/-- Python `s.strip()`. -/
def pyStrip (s : String) : String := ⟨trimChars s.data⟩

/-- Python `s.upper()` (ASCII letters; the SQL/JSON data handled by the app
is ASCII). -/
def pyUpper (s : String) : String := ⟨s.data.map Char.toUpper⟩

/-- Python `s.replace(pat, '')`. -/
def pyReplaceDel (pat s : String) : String := ⟨pyRemove pat.data s.data⟩

/-- Python `s[:n]` (prefix of at most `n` code points). -/
def pyTake (n : Nat) (s : String) : String := ⟨s.data.take n⟩

/-- Python `pat in s`. -/
def pyContains (pat s : String) : Bool := containsSeq pat.data s.data

/-- Python `s.startswith(pre)`. -/
def pyStartsWith (pre s : String) : Bool := pre.data.isPrefixOf s.data

/-- The SQL normalisation step of `translate_to_sql` (line 297):
`sql_query.replace('```sql', '').replace('```', '').strip()`. -/
def normSql (s : String) : String :=
  pyStrip (pyReplaceDel "```" (pyReplaceDel "```sql" s))

/-- The evaluation-response normalisation of `evaluate_application`
(line 203): `analysis_text.replace('```json', '').replace('```', '').strip()`. -/
def cleanAnalysis (s : String) : String :=
  pyStrip (pyReplaceDel "```" (pyReplaceDel "```json" s))

/-! ### JSON values and a model of Python `json.loads`

`json.loads` is modelled by a strict recursive-descent parser over the
character list, including the non-standard `NaN`/`Infinity`/`-Infinity`
literals Python's decoder accepts (kept as dedicated constructors).  Not
modelled (they never arise in the pipelines verified here): surrogate-pair
combination in `\uXXXX` escapes, and IEEE-754 rounding of decimal floats
(finite float values are kept as an exact mantissa/exponent pair). -/

/-- A decoded JSON value (the possible results of `json.loads`). -/
inductive Json where
  | null
  | bool (b : Bool)
  | int (n : Int)
  | float (mantissa : Int) (exp10 : Int)
  | nan
  | infinity (neg : Bool)
  | str (s : String)
  | arr (elems : List Json)
  | obj (members : List (String × Json))

/-- JSON insignificant whitespace. -/
def skipWs : List Char → List Char :=
  List.dropWhile (fun c => c = ' ' || c = '\t' || c = '\n' || c = '\r')

/-- Value of one hexadecimal digit. -/
def hexVal (c : Char) : Option Nat :=
  if '0' ≤ c ∧ c ≤ '9' then some (c.toNat - 48)
  else if 'a' ≤ c ∧ c ≤ 'f' then some (c.toNat - 87)
  else if 'A' ≤ c ∧ c ≤ 'F' then some (c.toNat - 55)
  else none

/-- Single-character JSON string escapes. -/
def escChar (e : Char) : Option Char :=
  if e = '\"' then some '\"'
  else if e = '\\' then some '\\'
  else if e = '/' then some '/'
  else if e = 'b' then some '\x08'
  else if e = 'f' then some '\x0c'
  else if e = 'n' then some '\n'
  else if e = 'r' then some '\r'
  else if e = 't' then some '\t'
  else none

/-- Body of a JSON string, assuming the opening quote was consumed; returns
the decoded characters and the remainder after the closing quote. -/
def parseStringBody : List Char → Option (List Char × List Char)
  | [] => none
  | c :: rest =>
    if c = '\"' then some ([], rest)
    else if c = '\\' then
      match rest with
      | [] => none
      | e :: rest2 =>
        if e = 'u' then
          match rest2 with
          | h1 :: h2 :: h3 :: h4 :: rest3 =>
            match hexVal h1, hexVal h2, hexVal h3, hexVal h4 with
            | some a, some b, some c2, some d =>
              (parseStringBody rest3).map fun p =>
                (Char.ofNat (((a * 16 + b) * 16 + c2) * 16 + d) :: p.1, p.2)
            | _, _, _, _ => none
          | _ => none
        else
          match escChar e with
          | some ch => (parseStringBody rest2).map fun p => (ch :: p.1, p.2)
          | none => none
    else if c.toNat < 32 then none
    else (parseStringBody rest).map fun p => (c :: p.1, p.2)

/-- Decimal digits to a natural number. -/
def digitsToNat (ds : List Char) : Nat :=
  ds.foldl (fun a c => a * 10 + (c.toNat - 48)) 0

/-- Assemble a parsed JSON number: an `int` when there is neither a
fractional part nor an exponent, otherwise an exact decimal `float`. -/
def mkNumber (neg : Bool) (ds fs : List Char) (es : Option (Bool × List Char)) : Json :=
  match fs, es with
  | [], none => .int (if neg then -(digitsToNat ds : Int) else (digitsToNat ds : Int))
  | _, _ =>
    let m : Int := digitsToNat (ds ++ fs)
    let m : Int := if neg then -m else m
    let e : Int :=
      (match es with
       | some (eneg, eds) =>
         if eneg then -(digitsToNat eds : Int) else (digitsToNat eds : Int)
       | none => 0) - fs.length
    .float m e

/-- Optional exponent part of a JSON number. -/
def parseExp (rest : List Char) : Option (Option (Bool × List Char) × List Char) :=
  match rest with
  | c :: r1 =>
    if c = 'e' ∨ c = 'E' then
      match r1 with
      | s :: r2 =>
        if s = '+' ∨ s = '-' then
          let eds := r2.takeWhile Char.isDigit
          if eds = [] then none
          else some (some (s = '-', eds), r2.dropWhile Char.isDigit)
        else
          let eds := r1.takeWhile Char.isDigit
          if eds = [] then none
          else some (some (false, eds), r1.dropWhile Char.isDigit)
      | [] => none
    else some (none, rest)
  | [] => some (none, rest)

/-- A JSON number (strict grammar: optional minus, no leading zeros,
fraction and exponent require at least one digit). -/
def parseNumber (s : List Char) : Option (Json × List Char) :=
  let p := match s with
    | c :: r => if c = '-' then (true, r) else (false, s)
    | [] => (false, s)
  let neg := p.1
  let s1 := p.2
  let ds := s1.takeWhile Char.isDigit
  let r1 := s1.dropWhile Char.isDigit
  if ds = [] then none
  else if 1 < ds.length ∧ ds.head? = some '0' then none
  else
    match r1 with
    | '.' :: r2 =>
      let fs := r2.takeWhile Char.isDigit
      if fs = [] then none
      else (parseExp (r2.dropWhile Char.isDigit)).map fun q => (mkNumber neg ds fs q.1, q.2)
    | _ => (parseExp r1).map fun q => (mkNumber neg ds [] q.1, q.2)

/-- Parser mode: a whole value, array elements just after `[`, further array
elements after one element, object members just after the opening brace,
further members after one member. -/
inductive PMode | value | arr0 | arrRest | obj0 | objRest

/-- Intermediate parser output for each mode. -/
inductive POut where
  | v (j : Json)
  | vs (js : List Json)
  | kvs (ps : List (String × Json))

/-- The two brace characters (written via code points). -/
def jsonLBrace : Char := Char.ofNat 123

/-- Closing brace. -/
def jsonRBrace : Char := Char.ofNat 125

/-- Fuelled recursive-descent JSON parser.  The fuel only bounds nesting
of recursive calls; `Json.parse` supplies `2 * length + 2`, which suffices
because every recursive call follows the consumption of at least one
character. -/
def parseCore : Nat → PMode → List Char → Option (POut × List Char)
  | 0, _, _ => none
  | fuel + 1, .value, s =>
    match skipWs s with
    | [] => none
    | c :: rest =>
      if c = 'n' then
        match rest with
        | 'u' :: 'l' :: 'l' :: r => some (.v .null, r)
        | _ => none
      else if c = 't' then
        match rest with
        | 'r' :: 'u' :: 'e' :: r => some (.v (.bool true), r)
        | _ => none
      else if c = 'f' then
        match rest with
        | 'a' :: 'l' :: 's' :: 'e' :: r => some (.v (.bool false), r)
        | _ => none
      else if c = 'N' then
        match rest with
        | 'a' :: 'N' :: r => some (.v .nan, r)
        | _ => none
      else if c = 'I' then
        match rest with
        | 'n' :: 'f' :: 'i' :: 'n' :: 'i' :: 't' :: 'y' :: r =>
          some (.v (.infinity false), r)
        | _ => none
      else if c = '-' then
        match rest with
        | 'I' :: 'n' :: 'f' :: 'i' :: 'n' :: 'i' :: 't' :: 'y' :: r =>
          some (.v (.infinity true), r)
        | _ => (parseNumber (c :: rest)).map fun p => (.v p.1, p.2)
      else if c = '\"' then
        (parseStringBody rest).map fun p => (.v (.str ⟨p.1⟩), p.2)
      else if c = '[' then
        match parseCore fuel .arr0 rest with
        | some (.vs js, r) => some (.v (.arr js), r)
        | _ => none
      else if c = jsonLBrace then
        match parseCore fuel .obj0 rest with
        | some (.kvs ps, r) => some (.v (.obj ps), r)
        | _ => none
      else
        (parseNumber (c :: rest)).map fun p => (.v p.1, p.2)
  | fuel + 1, .arr0, s =>
    match skipWs s with
    | ']' :: r => some (.vs [], r)
    | s' =>
      match parseCore fuel .value s' with
      | some (.v j, r1) =>
        match parseCore fuel .arrRest r1 with
        | some (.vs js, r2) => some (.vs (j :: js), r2)
        | _ => none
      | _ => none
  | fuel + 1, .arrRest, s =>
    match skipWs s with
    | ']' :: r => some (.vs [], r)
    | ',' :: r =>
      match parseCore fuel .value r with
      | some (.v j, r1) =>
        match parseCore fuel .arrRest r1 with
        | some (.vs js, r2) => some (.vs (j :: js), r2)
        | _ => none
      | _ => none
    | _ => none
  | fuel + 1, .obj0, s =>
    match skipWs s with
    | c :: r =>
      if c = jsonRBrace then some (.kvs [], r)
      else if c = '\"' then
        match parseStringBody r with
        | some (ks, r1) =>
          match skipWs r1 with
          | ':' :: r2 =>
            match parseCore fuel .value r2 with
            | some (.v j, r3) =>
              match parseCore fuel .objRest r3 with
              | some (.kvs ps, r4) => some (.kvs ((⟨ks⟩, j) :: ps), r4)
              | _ => none
            | _ => none
          | _ => none
        | none => none
      else none
    | [] => none
  | fuel + 1, .objRest, s =>
    match skipWs s with
    | c :: r =>
      if c = jsonRBrace then some (.kvs [], r)
      else if c = ',' then
        match skipWs r with
        | '\"' :: r0 =>
          match parseStringBody r0 with
          | some (ks, r1) =>
            match skipWs r1 with
            | ':' :: r2 =>
              match parseCore fuel .value r2 with
              | some (.v j, r3) =>
                match parseCore fuel .objRest r3 with
                | some (.kvs ps, r4) => some (.kvs ((⟨ks⟩, j) :: ps), r4)
                | _ => none
              | _ => none
            | _ => none
          | none => none
        | _ => none
      else none
    | [] => none

/-- Model of Python `json.loads`: parse one value, require only whitespace
after it; `none` models a raised `JSONDecodeError`. -/
def Json.parse (s : String) : Option Json :=
  match parseCore (2 * s.data.length + 2) .value s.data with
  | some (.v j, rest) => if skipWs rest = [] then some j else none
  | _ => none

/-! ### Python dictionary access and `int()` conversion -/

/-- Lookup in a decoded JSON object; duplicate keys behave as in a Python
dict built by `json.loads` (the last occurrence wins), and `d` is the
`dict.get` default. -/
def objGetD (kvs : List (String × Json)) (k : String) (d : Json) : Json :=
  (kvs.foldl (fun acc kv => if kv.1 = k then some kv.2 else acc) none).getD d

/-- Total variant of `analysis_data.get(k, d)` (used to state properties at
points where `analysis_data` is already known to be an object). -/
def pyGetD (j : Json) (k : String) (d : Json) : Json :=
  match j with
  | .obj kvs => objGetD kvs k d
  | _ => d

/-- Python `value.get(k, d)`: an `AttributeError` (modelled as `.error`)
unless the value is a dict. -/
def pyGet (j : Json) (k : String) (d : Json) : Except String Json :=
  match j with
  | .obj kvs => .ok (objGetD kvs k d)
  | _ => .error "AttributeError: no attribute get"

/-- Python `int(s)` on a string: optional sign around a nonempty digit
sequence, surrounding whitespace ignored (digit-group underscores are not
modelled). -/
def pyIntOfString (s : String) : Except String Int :=
  let t := trimChars s.data
  let p := match t with
    | c :: r => if c = '-' then (true, r) else if c = '+' then (false, r) else (false, t)
    | [] => (false, t)
  if p.2 ≠ [] ∧ p.2.all Char.isDigit then
    .ok (if p.1 then -(digitsToNat p.2 : Int) else (digitsToNat p.2 : Int))
  else .error "ValueError: invalid literal for int"

/-- Powers of ten over `Int`. -/
def pow10 (n : Nat) : Int := (10 : Int) ^ n

/-- Python `int(x)` on a decoded JSON value: identity on ints, truncation
toward zero on finite floats, digit parsing on strings, 0/1 on booleans;
NaN and the infinities raise (`ValueError`/`OverflowError`), as does any
other value (`TypeError`) — all modelled as `.error`. -/
def pyInt (j : Json) : Except String Int :=
  match j with
  | .int n => .ok n
  | .bool b => .ok (if b then 1 else 0)
  | .nan => .error "ValueError: cannot convert float NaN to integer"
  | .infinity _ => .error "OverflowError: cannot convert float infinity to integer"
  | .float m e => .ok (if 0 ≤ e then m * pow10 e.toNat else Int.tdiv m (pow10 (-e).toNat))
  | .str s => pyIntOfString s
  | _ => .error "TypeError: int argument must be a string or a number"

/-- Truth of an `Except` value. -/
def exOk {α : Type} : Except String α → Bool
  | .ok _ => true
  | .error _ => false

/-! ### The evaluation pipeline (`evaluate_application`, app.py 117-249)

External collaborators are modelled as one `EvalWorld` per request: the
rows the record store returns, whether the generation client is
configured, and the text the generation capability produces.  The fetched
student row (app.py 137-139) is dead in the source — it is never read
after being assigned — and is therefore not part of the world. -/

/-- The columns of an `applications` row that the pipeline reads.  A SQL
`NULL` in a reference column is `none`. -/
structure ApplicationRec where
  student_id : Option String
  job_id : Option String
  resume_url : String

/-- The columns of a `jobs` row that the pipeline reads (text columns of
the schema; a missing row is modelled by the caller substituting the empty
record, matching `job = {}` with `job.get(..., '')` defaults). -/
structure JobRec where
  title : String
  description : String
  requirements : String

/-- The empty job dict `{}` seen through `job.get(..., '')`. -/
def emptyJob : JobRec := ⟨"", "", ""⟩

/-- What the external collaborators return during one evaluation request.
`resumeFetch` is the outcome of downloading the stored resume and running
`extract_text` on it (app.py 142-145 with 94-115), consulted only when the
caller supplies no truthy resume text; `.error` models the exception such
a fetch-and-extract raises (unsupported format, corrupt bytes, download
failure). -/
structure EvalWorld where
  app? : Option ApplicationRec
  job? : Option JobRec
  resumeFetch : Except String String
  groqConfigured : Bool
  llmOutput : String

/-- The job dict after app.py 130-135: `{}` unless the application carries a
truthy `job_id` and the jobs query returns a row. -/
def jobOf (w : EvalWorld) (a : ApplicationRec) : JobRec :=
  match a.job_id with
  | some jid => if jid = "" then emptyJob else w.job?.getD emptyJob
  | none => emptyJob

/-- Resume text after app.py 141-145: the caller-supplied text when truthy,
otherwise the result of fetching the stored resume and extracting its
text — a step that can raise. -/
def resumeTextOf (w : EvalWorld) (rt : Option String) : Except String String :=
  match rt with
  | some s => if s = "" then w.resumeFetch else .ok s
  | none => w.resumeFetch

/-- Opening of the evaluation prompt template (app.py 151-154). -/
def analysisPromptPrefix : String :=
  "\n        Analyze this resume against the job requirements and provide a comprehensive evaluation in JSON format.\n        \n        Job Title: "

/-- Template text between the job title and the job description. -/
def analysisPromptMid1 : String := "\n        Job Description: "

/-- Template text between the job description and the resume text. -/
def analysisPromptMid2 : String := "\n        \n        Resume Text: "

/-- Closing of the evaluation prompt template (app.py 159-183): the JSON
shape contract and the scoring guidelines. -/
def analysisPromptSuffix : String :=
  "\n        \n        Please provide a detailed analysis in the following JSON format:\n        \x7b\n            \"skills\": [\"skill1\", \"skill2\", \"skill3\"],\n            \"key_projects\": [\"project1\", \"project2\", \"project3\"],\n            \"certifications\": [\"cert1\", \"cert2\"],\n            \"experience\": \"X years of experience\",\n            \"summary\": \"Brief 2-3 line summary of the candidate\",\n            \"relevance_score\": 85,\n            \"verdict\": \"High\",\n            \"strong_points\": [\"point1\", \"point2\", \"point3\"],\n            \"weak_points\": [\"point1\", \"point2\", \"point3\"]\n        \x7d\n        \n        Guidelines:\n        - be useful and helpful, critically analyse the resume and the job requirements\n        - be very critical and harsh in your analysis and giving relevance score\n        - if you find skill mismatch/low/lower than expected experience/bad projects cgpa reduce points significantly\n        - relevance_score: 0-100 based on overall match\n        - verdict: \"High\" (75+), \"Medium\" (50-74), \"Low\" (<50)\n        - Extract actual skills, projects, certifications from resume\n        - Provide specific strong/weak points based on job requirements\n        - Be objective and professional in analysis\n        \n        Return only valid JSON, no additional text.\n        "

/-- The evaluation prompt f-string (app.py 151-183): the job-requirements
text enters as `job_requirements[:2000]`, the resume as
`resume_text[:3000]`. -/
def analysis_prompt (title jobRequirements resumeText : String) : String :=
  analysisPromptPrefix ++ title ++ analysisPromptMid1 ++ pyTake 2000 jobRequirements
    ++ analysisPromptMid2 ++ pyTake 3000 resumeText ++ analysisPromptSuffix

/-- The hard-coded fallback dict of app.py 209-219, substituted when
`json.loads` raises. -/
def fallbackAnalysis : Json :=
  .obj [("skills", .arr []), ("key_projects", .arr []), ("certifications", .arr []),
    ("experience", .str "Unknown"), ("summary", .str "Unable to analyze resume"),
    ("relevance_score", .int 50), ("verdict", .str "Medium"),
    ("strong_points", .arr [.str "Resume submitted"]),
    ("weak_points", .arr [.str "Unable to analyze"])]

/-- app.py 200-219: strip fence markers, attempt `json.loads`, fall back to
the fixed dict on a decode error. -/
def parsedAnalysis (analysis_text : String) : Json :=
  (Json.parse (cleanAnalysis analysis_text)).getD fallbackAnalysis

/-- The fields of `update_data` (app.py 222-234) that are computed from the
decoded analysis value. -/
structure AnalysisFields where
  relevance_score : Int
  verdict : Json
  strong_points : Json
  weak_points : Json
  skills : Json
  key_projects : Json
  certifications : Json
  experience : Json
  summary : Json

/-- Evaluation of the analysis-derived entries of the `update_data` dict
literal, in source order; any raised `AttributeError`/`ValueError`/
`TypeError` is propagated (and later caught by the handler at app.py 244). -/
def mkAnalysisFields (analysis_data : Json) : Except String AnalysisFields := do
  let rs ← pyGet analysis_data "relevance_score" (.int 50)
  let relevance_score ← pyInt rs
  let verdict ← pyGet analysis_data "verdict" (.str "Medium")
  let strong_points ← pyGet analysis_data "strong_points" (.arr [])
  let weak_points ← pyGet analysis_data "weak_points" (.arr [])
  let skills ← pyGet analysis_data "skills" (.arr [])
  let key_projects ← pyGet analysis_data "key_projects" (.arr [])
  let certifications ← pyGet analysis_data "certifications" (.arr [])
  let experience ← pyGet analysis_data "experience" (.str "")
  let summary ← pyGet analysis_data "summary" (.str "")
  pure ⟨relevance_score, verdict, strong_points, weak_points, skills, key_projects,
    certifications, experience, summary⟩

/-- The full `update_data` dict (app.py 222-234): the analysis-derived
fields plus `student_id` copied from the application and `applied_for`
from the job title. -/
structure UpdateData where
  student_id : Option String
  relevance_score : Int
  verdict : Json
  strong_points : Json
  weak_points : Json
  skills : Json
  key_projects : Json
  certifications : Json
  experience : Json
  summary : Json
  applied_for : String

/-- Build `update_data` for one application/job/analysis triple. -/
def mkUpdateData (application : ApplicationRec) (job : JobRec) (analysis_data : Json) :
    Except String UpdateData :=
  (mkAnalysisFields analysis_data).map fun f =>
    ⟨application.student_id, f.relevance_score, f.verdict, f.strong_points,
      f.weak_points, f.skills, f.key_projects, f.certifications, f.experience,
      f.summary, job.title⟩

/-- Result of `evaluate_application`: the `{'ok': True, 'relevance_score',
'verdict'}` acknowledgment (whose values are the raw `.get` results,
app.py 238-242) or the `{'ok': False, 'error'}` dict. -/
inductive EvalResult where
  | ok (relevance_score : Json) (verdict : Json)
  | err (error : String)

/-- `ok` field of the returned dict. -/
def EvalResult.isOkB : EvalResult → Bool
  | .ok _ _ => true
  | .err _ => false

/-- `evaluate_application` (app.py 117-249) for one request, returning the
response dict together with the list of `applications`-table writes the
invocation performed.  The record-store reads and the final persist are
total, with their results part of the world (spec section 6 scopes their
transport failures out); the resume fetch-and-extract step is fallible
through `resumeFetch`, and its exception is caught by the handler at
app.py 244 like every other one. -/
def evaluate_application (w : EvalWorld) (resume_text : Option String) :
    EvalResult × List UpdateData :=
  match w.app? with
  | none => (.err "Application not found", [])
  | some application =>
    let job := jobOf w application
    match resumeTextOf w resume_text with
    | .error e => (.err e, [])
    | .ok rtext =>
      let job_requirements := job.description ++ " " ++ job.requirements
      let _prompt := analysis_prompt job.title job_requirements rtext
      if w.groqConfigured then
        let analysis_text := pyStrip w.llmOutput
        let analysis_data := parsedAnalysis analysis_text
        match mkUpdateData application job analysis_data with
        | .error e => (.err e, [])
        | .ok update_data =>
          (.ok (pyGetD analysis_data "relevance_score" (.int 50))
            (pyGetD analysis_data "verdict" (.str "Medium")), [update_data])
      else (.err "LLM client not available", [])

/-! ### The guarded NL-to-SQL pipeline (app.py 251-363, 886-909) -/

/-- The keyword denylist of app.py 302. -/
def dangerous_keywords : List String :=
  ["DROP", "DELETE", "INSERT", "UPDATE", "ALTER", "CREATE", "TRUNCATE"]

/-- The table allowlist of app.py 321. -/
def allowed_tables : List String := ["students", "jobs", "applications"]

/-- The string checks of `translate_to_sql` applied to the raw generator
response (app.py 293-309): normalise, then shape check, then keyword
denylist, short-circuiting; the vetted (normalised) query is returned. -/
def translateGate (llm_response : String) : Except String String :=
  let sql_query := pyStrip llm_response
  let sql_query := normSql sql_query
  if pyStartsWith "SELECT" (pyUpper sql_query) = false then
    .error "Only SELECT statements are allowed"
  else if dangerous_keywords.any (fun k => pyContains k (pyUpper sql_query)) then
    .error "Dangerous SQL keywords detected"
  else .ok sql_query

/-- `translate_to_sql` (app.py 251-315): generation then gating.  The
generator's response text for this request is an input; with no client
configured the function fails before gating. -/
def translate_to_sql (groqConfigured : Bool) (llm_response : String) :
    Except String String :=
  if groqConfigured then translateGate (pyStrip llm_response)
  else .error "LLM client not available"

/-- The table allowlist check of app.py 320-332.  The `for`/`else` in the
source always falls through to the `else` (the loop never breaks), so the
effective check is: some allowed table name occurs, uppercased, as a
substring of the uppercased query. -/
def tableGate (sql_query : String) : Bool :=
  allowed_tables.any (fun t => pyContains (pyUpper t) (pyUpper sql_query))

/-- One record returned by the remote `execute_sql` capability: an ordered
key/value mapping (a JSON object, i.e. a Python dict). -/
abbrev PyRecord : Type := List (String × Json)

/-- Response of `validate_and_execute_sql`/`nlp_to_sql`. -/
inductive SqlResponse where
  | ok (columns : List String) (rows : List (List Json))
  | err (error : String)

/-- Reshaping of the executed query's records (app.py 339-357): columns
from the key order of the first record, each row the value sequence of one
record, and the empty record list reported as an empty success. -/
def reshapeRows (data : List PyRecord) : SqlResponse :=
  match data with
  | [] => .ok [] []
  | first :: _ => .ok (first.map Prod.fst) (data.map (fun r => r.map Prod.snd))

/-- `validate_and_execute_sql` (app.py 317-363), returning the response
dict and whether the remote query-execution capability was invoked.
`execData` is what the capability would return if invoked (the capability
itself is total in the model; its transport failures are out of scope). -/
def validate_and_execute_sql (execData : List PyRecord) (sql_query : String) :
    SqlResponse × Bool :=
  if tableGate sql_query = false then
    (.err "SQL execution failed: Query must reference allowed tables only", false)
  else (reshapeRows execData, true)

/-- The `/api/nlpsql` pipeline `nlp_to_sql` (app.py 886-909): reject a
missing/empty query, translate, then validate-and-execute; the Bool records
whether the remote execution capability was invoked. -/
def nlp_to_sql (groqConfigured : Bool) (llm_response : String)
    (execData : List PyRecord) (query : Option String) : SqlResponse × Bool :=
  match query with
  | none => (.err "query required", false)
  | some q =>
    if q = "" then (.err "query required", false)
    else
      match translate_to_sql groqConfigured llm_response with
      | .error e => (.err e, false)
      | .ok sql => validate_and_execute_sql execData sql

/-! ### Spec-side definitions (stated from the specification's words, for
comparison with the source-derived definitions) -/

/-- Modelled from the spec: the fixed verdict thresholds of section 3 —
High for scores at least 75, Medium for 50 to 74, Low below 50. -/
def specVerdict (s : Int) : String :=
  if 75 ≤ s then "High" else if 50 ≤ s then "Medium" else "Low"

/-- First-match lookup of a column value in a record (used by the
spec-side reshaping). -/
def lookupVal (r : PyRecord) (c : String) : Json :=
  ((List.find? (fun kv => kv.1 == c) r).map Prod.snd).getD Json.null

/-- Modelled from the spec: reshaping in which every row is positionally
aligned to the first record's key order (section 4.8's "each subsequent
record converted to a positional value sequence in that same column
order"). -/
def specReshape (data : List PyRecord) : SqlResponse :=
  match data with
  | [] => .ok [] []
  | first :: _ =>
    let cols := first.map Prod.fst
    .ok cols (data.map (fun r => cols.map (fun c => lookupVal r c)))

/-! ### Concrete request worlds and data used in the claim instances -/

/-- A stored application row. -/
def appRow : ApplicationRec := ⟨some "stu-1", some "job-1", "resumes/r.pdf"⟩

/-- A stored job row. -/
def jobRow : JobRec := ⟨"Backend Engineer", "Build services", "Python, SQL"⟩

/-- A request in which the generator answers with a high score but the
label "Low". -/
def c1World : EvalWorld :=
  ⟨some appRow, some jobRow, .ok "resume", true,
    "\x7b\"relevance_score\": 90, \"verdict\": \"Low\"\x7d"⟩

/-- A request in which the generator answers with unparseable text. -/
def c2World : EvalWorld :=
  ⟨some appRow, some jobRow, .ok "resume", true, "not json"⟩

/-- A request for an application id the store does not know. -/
def c10World : EvalWorld := ⟨none, none, .ok "", true, ""⟩

/-- The gate examples named by the specification. -/
def gateAcceptQuery : String := "SELECT * FROM jobs WHERE status=\x27open\x27"

/-- Keyword-rejection example. -/
def gateKeywordQuery : String := "SELECT * FROM jobs; DROP TABLE jobs"

/-- Shape-rejection example. -/
def gateShapeQuery : String := "UPDATE jobs SET status=\x27x\x27"

/-- Table-allowlist rejection example. -/
def gateTableQuery : String := "SELECT * FROM payroll"

/-- Executor example with records sharing one key order. -/
def recordsAligned : List PyRecord :=
  [[("id", Json.int 1), ("name", Json.str "a")],
   [("id", Json.int 2), ("name", Json.str "b")]]

/-- Executor example whose second record lists its keys in the opposite
order. -/
def recordsMixed : List PyRecord :=
  [[("id", Json.int 1), ("name", Json.str "a")],
   [("name", Json.str "b"), ("id", Json.int 2)]]

/-! ### Claim C7: prompt truncation -/

/-- Truncation to a fixed prefix is idempotent. -/
theorem pyTake_idem (n : Nat) (s : String) : pyTake n (pyTake n s) = pyTake n s := by
  unfold pyTake
  apply congrArg String.mk
  simp [List.take_take]

/-- C7: the evaluation prompt depends only on the first 2000 characters of
the concatenated job-requirements text and the first 3000 characters of the
resume text — replacing either input by its bounded prefix leaves the built
prompt unchanged. -/
theorem c7_prompt_truncation (title jobRequirements resumeText : String) :
    analysis_prompt title jobRequirements resumeText =
      analysis_prompt title (pyTake 2000 jobRequirements) (pyTake 3000 resumeText) := by
  unfold analysis_prompt
  rw [pyTake_idem, pyTake_idem]

/-- C7 instance: a 5000-character job-requirements text and a
10000-character resume produce the same prompt as their 2000- and
3000-character prefixes. -/
theorem c7_prompt_truncation_witness :
    analysis_prompt "T" ⟨List.replicate 5000 'a'⟩ ⟨List.replicate 10000 'b'⟩ =
      analysis_prompt "T" (pyTake 2000 ⟨List.replicate 5000 'a'⟩)
        (pyTake 3000 ⟨List.replicate 10000 'b'⟩) :=
  c7_prompt_truncation "T" ⟨List.replicate 5000 'a'⟩ ⟨List.replicate 10000 'b'⟩

/-! ### Claim C6: executor reshaping -/

/-- Looking a record's own keys up in the record, in key order, recovers
the record's value sequence — provided the keys are distinct (as they are
in a Python dict). -/
theorem lookup_self_row (r : List (String × Json)) (h : (r.map Prod.fst).Nodup) :
    (r.map Prod.fst).map (fun c => lookupVal r c) = r.map Prod.snd := by
  induction r with
  | nil => rfl
  | cons kv rs ih =>
    obtain ⟨k, v⟩ := kv
    simp only [List.map_cons, List.nodup_cons] at h ⊢
    obtain ⟨hk, hnd⟩ := h
    refine List.cons_eq_cons.mpr ⟨?_, ?_⟩
    · simp [lookupVal, List.find?]
    · have hcongr : ∀ c ∈ rs.map Prod.fst,
          lookupVal ((k, v) :: rs) c = lookupVal rs c := by
        intro c hc
        have hne : (k == c) = false := by
          rcases List.mem_map.mp hc with ⟨kv2, hkv2, hfst⟩
          have : k ≠ c := fun hkc => hk (hkc ▸ hc)
          simp [this]
        simp [lookupVal, List.find?, hne]
      rw [List.map_congr_left hcongr, ih hnd]

/-- C6 counterexample: when the second record lists its keys in a different
order, the source keeps that record's own value order, while the claimed
behaviour aligns the row to the first record's key order — the two
reshapings disagree. -/
theorem c6_counterexample :
    reshapeRows recordsMixed =
      SqlResponse.ok ["id", "name"]
        [[Json.int 1, Json.str "a"], [Json.str "b", Json.int 2]] ∧
    specReshape recordsMixed =
      SqlResponse.ok ["id", "name"]
        [[Json.int 1, Json.str "a"], [Json.int 2, Json.str "b"]] ∧
    reshapeRows recordsMixed ≠ specReshape recordsMixed := by
  refine ⟨rfl, rfl, ?_⟩
  intro h
  rw [show reshapeRows recordsMixed =
      SqlResponse.ok ["id", "name"]
        [[Json.int 1, Json.str "a"], [Json.str "b", Json.int 2]] from rfl,
    show specReshape recordsMixed =
      SqlResponse.ok ["id", "name"]
        [[Json.int 1, Json.str "a"], [Json.int 2, Json.str "b"]] from rfl] at h
  simp at h

/-- C6 (amended): the empty record list reshapes to an empty success, the
claim's concrete example holds, and whenever every record lists its keys
in the first record's key order (with distinct keys — always true of
Python dicts), each row is positionally aligned to the columns exactly as
claimed. -/
theorem c6_reshape :
    reshapeRows [] = SqlResponse.ok [] [] ∧
    reshapeRows recordsAligned =
      SqlResponse.ok ["id", "name"]
        [[Json.int 1, Json.str "a"], [Json.int 2, Json.str "b"]] ∧
    (∀ (data : List PyRecord) (first : PyRecord) (rest : List PyRecord),
      data = first :: rest → (first.map Prod.fst).Nodup →
      (∀ r ∈ data, r.map Prod.fst = first.map Prod.fst) →
      reshapeRows data = specReshape data) := by
  refine ⟨rfl, rfl, ?_⟩
  intro data first rest hdata hnd hall
  subst hdata
  unfold reshapeRows specReshape
  simp only
  congr 1
  apply List.map_congr_left
  intro r hr
  have hkeys : r.map Prod.fst = first.map Prod.fst := hall r hr
  rw [← hkeys, lookup_self_row r (hkeys ▸ hnd)]

/-- C6 witness: the alignment statement applied to the claim's own
two-record example. -/
theorem c6_reshape_witness :
    reshapeRows recordsAligned = specReshape recordsAligned :=
  c6_reshape.2.2 recordsAligned
    [("id", Json.int 1), ("name", Json.str "a")]
    [[("id", Json.int 2), ("name", Json.str "b")]]
    rfl (by simp) (by simp [recordsAligned])

/-! ### Claim C3: gate check order and the four named examples -/

/-- C3: the gate applies shape, then keyword denylist, then table
allowlist, short-circuiting on the first violation, and classifies the
four queries named by the specification as claimed. -/
theorem c3_query_gate_order :
    (translateGate gateAcceptQuery = .ok gateAcceptQuery ∧
      tableGate gateAcceptQuery = true) ∧
    (translateGate gateKeywordQuery = .error "Dangerous SQL keywords detected") ∧
    (translateGate gateShapeQuery = .error "Only SELECT statements are allowed") ∧
    (translateGate gateTableQuery = .ok gateTableQuery ∧
      (validate_and_execute_sql [] gateTableQuery).1 =
        .err "SQL execution failed: Query must reference allowed tables only") ∧
    (∀ s, pyStartsWith "SELECT" (pyUpper (normSql (pyStrip s))) = false →
      translateGate s = .error "Only SELECT statements are allowed") ∧
    (∀ s, pyStartsWith "SELECT" (pyUpper (normSql (pyStrip s))) = true →
      dangerous_keywords.any (fun k => pyContains k (pyUpper (normSql (pyStrip s)))) = true →
      translateGate s = .error "Dangerous SQL keywords detected") ∧
    (∀ s, pyStartsWith "SELECT" (pyUpper (normSql (pyStrip s))) = true →
      dangerous_keywords.any (fun k => pyContains k (pyUpper (normSql (pyStrip s)))) = false →
      translateGate s = .ok (normSql (pyStrip s))) := by
  refine ⟨⟨rfl, rfl⟩, rfl, rfl, ⟨rfl, rfl⟩, ?_, ?_, ?_⟩
  · intro s hs
    unfold translateGate
    simp [hs]
  · intro s hs hkw
    unfold translateGate
    simp [hs, hkw]
  · intro s hs hkw
    unfold translateGate
    simp [hs, hkw]

/-- C3 witness: the order statements applied at fresh queries — a shape
violation, a keyword sneaking in behind a valid shape, and a fenced query
the gate accepts after normalisation. -/
theorem c3_query_gate_order_witness :
    translateGate "DELETE FROM students" = .error "Only SELECT statements are allowed" ∧
    translateGate "SELECT id FROM applications; DELETE FROM jobs" =
      .error "Dangerous SQL keywords detected" ∧
    translateGate " ```sql\nSELECT id FROM students\n``` " = .ok "SELECT id FROM students" :=
  ⟨c3_query_gate_order.2.2.2.2.1 "DELETE FROM students" (by rfl),
   c3_query_gate_order.2.2.2.2.2.1 "SELECT id FROM applications; DELETE FROM jobs"
     (by rfl) (by rfl),
   c3_query_gate_order.2.2.2.2.2.2 " ```sql\nSELECT id FROM students\n``` "
     (by rfl) (by rfl)⟩

/-! ### Claim C4: the keyword denylist is a pure substring scan -/

/-- C4: whenever one of the seven denylisted keywords occurs as a substring
of the uppercased normalised query — wherever it occurs — the gate refuses
the query, and conversely every vetted query it returns is free of such
substrings. -/
theorem c4_keyword_denylist (s : String) :
    (dangerous_keywords.any
        (fun k => pyContains k (pyUpper (normSql (pyStrip s)))) = true →
      exOk (translateGate s) = false) ∧
    (∀ v, translateGate s = .ok v →
      dangerous_keywords.any (fun k => pyContains k (pyUpper v)) = false) := by
  constructor
  · intro hkw
    unfold translateGate
    by_cases hs : pyStartsWith "SELECT" (pyUpper (normSql (pyStrip s))) = false
    · simp [hs, exOk]
    · simp [hs, hkw, exOk]
  · intro v hv
    unfold translateGate at hv
    by_cases hs : pyStartsWith "SELECT" (pyUpper (normSql (pyStrip s))) = false
    · simp [hs] at hv
    · by_cases hkw : dangerous_keywords.any
          (fun k => pyContains k (pyUpper (normSql (pyStrip s)))) = true
      · simp [hs, hkw] at hv
      · simp only [Bool.not_eq_true] at hkw
        simp [hs, hkw] at hv
        rw [← hv]
        exact hkw

/-- C4 witness: a keyword hidden inside the column name `created_at` is
rejected, and a keyword-free vetted query indeed contains no denylisted
substring. -/
theorem c4_keyword_denylist_witness :
    exOk (translateGate "SELECT created_at FROM jobs") = false ∧
    dangerous_keywords.any (fun k => pyContains k (pyUpper "SELECT id FROM jobs")) = false :=
  ⟨(c4_keyword_denylist "SELECT created_at FROM jobs").1 (by rfl),
   (c4_keyword_denylist "SELECT id FROM jobs").2 "SELECT id FROM jobs" (by rfl)⟩

/-! ### Claim C5: rejected queries are never executed -/

/-- C5: in the `/api/nlpsql` pipeline, a translation failure or a table-
allowlist rejection yields `{ok: false, error}` and the remote execution
capability is never invoked. -/
theorem c5_no_execute_on_rejection (conf : Bool) (resp : String)
    (data : List PyRecord) (q : Option String) :
    (exOk (translate_to_sql conf resp) = false →
      (nlp_to_sql conf resp data q).2 = false) ∧
    (∀ qq e, q = some qq → qq ≠ "" → translate_to_sql conf resp = .error e →
      nlp_to_sql conf resp data q = (.err e, false)) ∧
    (∀ qq sql, q = some qq → qq ≠ "" → translate_to_sql conf resp = .ok sql →
      tableGate sql = false →
      nlp_to_sql conf resp data q =
        (.err "SQL execution failed: Query must reference allowed tables only", false)) := by
  refine ⟨?_, ?_, ?_⟩
  · intro hfail
    match hq : q with
    | none => rfl
    | some qq =>
      unfold nlp_to_sql
      by_cases hqq : qq = ""
      · simp [hqq]
      · simp only [hqq, if_false]
        match ht : translate_to_sql conf resp with
        | .error e => rfl
        | .ok sql => rw [ht] at hfail; exact absurd hfail (by simp [exOk])
  · intro qq e hq hqq ht
    subst hq
    unfold nlp_to_sql
    simp [hqq, ht]
  · intro qq sql hq hqq ht htab
    subst hq
    unfold nlp_to_sql
    simp only [hqq, if_false]
    rw [ht]
    unfold validate_and_execute_sql
    simp [htab]

/-- C5 witness: a shape-rejected translation and a table-rejected vetted
query both return an error without invoking the executor. -/
theorem c5_no_execute_on_rejection_witness :
    nlp_to_sql true "UPDATE jobs SET status=\x27x\x27" [] (some "close all jobs") =
      (.err "Only SELECT statements are allowed", false) ∧
    nlp_to_sql true gateTableQuery [] (some "show payroll") =
      (.err "SQL execution failed: Query must reference allowed tables only", false) :=
  ⟨(c5_no_execute_on_rejection true "UPDATE jobs SET status=\x27x\x27" []
      (some "close all jobs")).2.1 "close all jobs" _ rfl (by simp) (by rfl),
   (c5_no_execute_on_rejection true gateTableQuery [] (some "show payroll")).2.2
     "show payroll" gateTableQuery rfl (by simp) (by rfl) (by rfl)⟩

/-! ### Helper lemmas about the evaluation pipeline -/

/-- Unfolding: a missing application row fails the pipeline at the fetch
step with no write. -/
theorem evaluate_none (w : EvalWorld) (rt : Option String) (h : w.app? = none) :
    evaluate_application w rt = (.err "Application not found", []) := by
  unfold evaluate_application
  rw [h]

/-- Unfolding: a raising resume fetch-and-extract step fails the pipeline
with no write. -/
theorem evaluate_extract_err (w : EvalWorld) (rt : Option String)
    (a : ApplicationRec) (e : String) (h : w.app? = some a)
    (hr : resumeTextOf w rt = .error e) :
    evaluate_application w rt = (.err e, []) := by
  unfold evaluate_application
  rw [h, hr]

/-- Unfolding: an unconfigured generation client fails the pipeline at the
generating step with no write. -/
theorem evaluate_noclient (w : EvalWorld) (rt : Option String) (a : ApplicationRec)
    (rtext : String) (h : w.app? = some a) (hr : resumeTextOf w rt = .ok rtext)
    (hg : w.groqConfigured = false) :
    evaluate_application w rt = (.err "LLM client not available", []) := by
  unfold evaluate_application
  rw [h, hr, hg]
  rfl

/-- Unfolding: with an application row and a configured client, the outcome
is decided by the `update_data` construction over the parsed analysis. -/
theorem evaluate_step (w : EvalWorld) (rt : Option String) (a : ApplicationRec)
    (rtext : String) (h : w.app? = some a) (hr : resumeTextOf w rt = .ok rtext)
    (hg : w.groqConfigured = true) :
    evaluate_application w rt =
      (match mkUpdateData a (jobOf w a) (parsedAnalysis (pyStrip w.llmOutput)) with
       | .error e => (.err e, [])
       | .ok ud =>
         (.ok (pyGetD (parsedAnalysis (pyStrip w.llmOutput)) "relevance_score" (.int 50))
           (pyGetD (parsedAnalysis (pyStrip w.llmOutput)) "verdict" (.str "Medium")),
           [ud])) := by
  unfold evaluate_application
  rw [h, hr, hg]
  rfl

/-- On a decoded object the analysis-field extraction fails only at the
`int()` conversion, and otherwise records exactly the `dict.get` results. -/
theorem mkAnalysisFields_obj (kvs : List (String × Json)) :
    mkAnalysisFields (.obj kvs) =
      (pyInt (objGetD kvs "relevance_score" (.int 50))).map fun n =>
        ⟨n, objGetD kvs "verdict" (.str "Medium"), objGetD kvs "strong_points" (.arr []),
          objGetD kvs "weak_points" (.arr []), objGetD kvs "skills" (.arr []),
          objGetD kvs "key_projects" (.arr []), objGetD kvs "certifications" (.arr []),
          objGetD kvs "experience" (.str ""), objGetD kvs "summary" (.str "")⟩ := by
  cases h : pyInt (objGetD kvs "relevance_score" (.int 50)) with
  | ok n =>
    simp [mkAnalysisFields, pyGet, h, Except.map, Bind.bind, Except.bind, pure, Except.pure]
  | error e =>
    simp [mkAnalysisFields, pyGet, h, Except.map, Bind.bind, Except.bind, pure, Except.pure]

/-- The analysis-field extraction raises on every non-object analysis
value. -/
theorem mkAnalysisFields_nonobj (d : Json) (h : ∀ kvs, d ≠ .obj kvs) :
    mkAnalysisFields d = .error "AttributeError: no attribute get" := by
  cases d with
  | obj kvs => exact absurd rfl (h kvs)
  | null => rfl
  | bool b => rfl
  | int n => rfl
  | float m e => rfl
  | nan => rfl
  | infinity neg => rfl
  | str s => rfl
  | arr xs => rfl

/-- A successful `update_data` construction stores the generator's own
verdict label (with the `'Medium'` default). -/
theorem mkUpdateData_verdict (a : ApplicationRec) (j : JobRec) (d : Json)
    (ud : UpdateData) (h : mkUpdateData a j d = .ok ud) :
    ud.verdict = pyGetD d "verdict" (Json.str "Medium") := by
  unfold mkUpdateData at h
  cases d with
  | obj kvs =>
    rw [mkAnalysisFields_obj] at h
    cases hn : pyInt (objGetD kvs "relevance_score" (.int 50)) with
    | ok n =>
      rw [hn] at h
      simp only [Except.map] at h
      cases h
      rfl
    | error e =>
      rw [hn] at h
      simp [Except.map] at h
  | null => rw [mkAnalysisFields_nonobj _ (by intro kvs hk; cases hk)] at h; simp [Except.map] at h
  | nan => rw [mkAnalysisFields_nonobj _ (by intro kvs hk; cases hk)] at h; simp [Except.map] at h
  | infinity neg => rw [mkAnalysisFields_nonobj _ (by intro kvs hk; cases hk)] at h; simp [Except.map] at h
  | bool b => rw [mkAnalysisFields_nonobj _ (by intro kvs hk; cases hk)] at h; simp [Except.map] at h
  | int n => rw [mkAnalysisFields_nonobj _ (by intro kvs hk; cases hk)] at h; simp [Except.map] at h
  | float m e2 => rw [mkAnalysisFields_nonobj _ (by intro kvs hk; cases hk)] at h; simp [Except.map] at h
  | str s => rw [mkAnalysisFields_nonobj _ (by intro kvs hk; cases hk)] at h; simp [Except.map] at h
  | arr xs => rw [mkAnalysisFields_nonobj _ (by intro kvs hk; cases hk)] at h; simp [Except.map] at h

/-- Unfolding: a failing `update_data` construction surfaces its error with
no write performed. -/
theorem evaluate_step_err (w : EvalWorld) (rt : Option String) (a : ApplicationRec)
    (rtext : String) (e : String) (h : w.app? = some a)
    (hr : resumeTextOf w rt = .ok rtext) (hg : w.groqConfigured = true)
    (hmk : mkUpdateData a (jobOf w a) (parsedAnalysis (pyStrip w.llmOutput)) = .error e) :
    evaluate_application w rt = (.err e, []) := by
  rw [evaluate_step w rt a rtext h hr hg, hmk]

/-- Unfolding: a successful `update_data` construction is persisted and
acknowledged with the raw `.get` results. -/
theorem evaluate_step_ok (w : EvalWorld) (rt : Option String) (a : ApplicationRec)
    (rtext : String) (ud : UpdateData) (h : w.app? = some a)
    (hr : resumeTextOf w rt = .ok rtext) (hg : w.groqConfigured = true)
    (hmk : mkUpdateData a (jobOf w a) (parsedAnalysis (pyStrip w.llmOutput)) = .ok ud) :
    evaluate_application w rt =
      (.ok (pyGetD (parsedAnalysis (pyStrip w.llmOutput)) "relevance_score" (.int 50))
        (pyGetD (parsedAnalysis (pyStrip w.llmOutput)) "verdict" (.str "Medium")),
        [ud]) := by
  rw [evaluate_step w rt a rtext h hr hg, hmk]

/-! ### Claim C1: which verdict is persisted -/

/-- C1 counterexample: for a generator response scoring 90 but labelled
"Low", the pipeline persists and returns "Low", although the fixed
thresholds map 90 to "High" — the translator does not enforce the
score-derived mapping. -/
theorem c1_counterexample :
    (evaluate_application c1World (some "resume text")).1 =
      EvalResult.ok (Json.int 90) (Json.str "Low") ∧
    (evaluate_application c1World (some "resume text")).2.map UpdateData.verdict =
      [Json.str "Low"] ∧
    specVerdict 90 = "High" ∧ Json.str "Low" ≠ Json.str "High" :=
  ⟨rfl, rfl, rfl, by simp⟩

/-- C1 (amended): for every evaluation that completes successfully, the
verdict persisted on the application and the verdict returned to the
caller are both the generator's own verdict label (defaulting to "Medium"
when the field is absent), not the label derived from the relevance score
by the fixed thresholds. -/
theorem c1_generator_verdict_kept (w : EvalWorld) (rt : Option String) (s v : Json)
    (h : (evaluate_application w rt).1 = EvalResult.ok s v) :
    v = pyGetD (parsedAnalysis (pyStrip w.llmOutput)) "verdict" (Json.str "Medium") ∧
    (evaluate_application w rt).2.map UpdateData.verdict =
      [pyGetD (parsedAnalysis (pyStrip w.llmOutput)) "verdict" (Json.str "Medium")] := by
  cases happ : w.app? with
  | none =>
    rw [evaluate_none w rt happ] at h
    exact absurd h (by simp)
  | some a =>
    cases hr : resumeTextOf w rt with
    | error e =>
      rw [evaluate_extract_err w rt a e happ hr] at h
      exact absurd h (by simp)
    | ok rtext =>
      cases hg : w.groqConfigured with
      | false =>
        rw [evaluate_noclient w rt a rtext happ hr hg] at h
        exact absurd h (by simp)
      | true =>
        cases hmk : mkUpdateData a (jobOf w a) (parsedAnalysis (pyStrip w.llmOutput)) with
        | error e =>
          rw [evaluate_step_err w rt a rtext e happ hr hg hmk] at h
          exact absurd h (by simp)
        | ok ud =>
          rw [evaluate_step_ok w rt a rtext ud happ hr hg hmk] at h ⊢
          simp only [EvalResult.ok.injEq] at h
          refine ⟨h.2.symm, ?_⟩
          simp [mkUpdateData_verdict _ _ _ _ hmk]

/-- C1 witness: the amended statement at the concrete "high score, Low
label" request. -/
theorem c1_generator_verdict_kept_witness :
    Json.str "Low" =
      pyGetD (parsedAnalysis (pyStrip c1World.llmOutput)) "verdict" (Json.str "Medium") ∧
    (evaluate_application c1World (some "resume text")).2.map UpdateData.verdict =
      [pyGetD (parsedAnalysis (pyStrip c1World.llmOutput)) "verdict" (Json.str "Medium")] :=
  c1_generator_verdict_kept c1World (some "resume text") (Json.int 90) (Json.str "Low") rfl

/-! ### Claim C2: the fallback on decode failure -/

/-- C2 counterexample: parsing `"not json"` does yield the pipeline's fixed
fallback record — but that record does not have empty lists for all list
fields: its `strong_points` is `["Resume submitted"]` (and its
`weak_points` is `["Unable to analyze"]`). -/
theorem c2_counterexample :
    Json.parse (cleanAnalysis "not json") = none ∧
    parsedAnalysis "not json" = fallbackAnalysis ∧
    pyGetD fallbackAnalysis "strong_points" (Json.arr []) =
      Json.arr [Json.str "Resume submitted"] ∧
    pyGetD fallbackAnalysis "weak_points" (Json.arr []) =
      Json.arr [Json.str "Unable to analyze"] ∧
    Json.arr [Json.str "Resume submitted"] ≠ Json.arr [] :=
  ⟨rfl, rfl, rfl, rfl, by simp⟩

/-- C2 (amended): every generator output that fails strict JSON decoding
after fence stripping is replaced by exactly the fixed fallback dict of
app.py 209-219 (empty `skills`/`key_projects`/`certifications`, experience
"Unknown", summary "Unable to analyze resume", score 50, verdict "Medium",
`strong_points = ["Resume submitted"]`, `weak_points = ["Unable to
analyze"]`); no error is propagated and the evaluation is still reported
as successful, acknowledging score 50 and verdict "Medium".  The request
must of course have reached the parse step: the application exists, its
resume text was obtained, and the client is configured. -/
theorem c2_decode_failure_fallback :
    (∀ s, Json.parse (cleanAnalysis s) = none → parsedAnalysis s = fallbackAnalysis) ∧
    (∀ (w : EvalWorld) (rt : Option String) (a : ApplicationRec) (rtext : String),
      w.app? = some a → resumeTextOf w rt = .ok rtext → w.groqConfigured = true →
      Json.parse (cleanAnalysis (pyStrip w.llmOutput)) = none →
      (evaluate_application w rt).1 = EvalResult.ok (Json.int 50) (Json.str "Medium")) := by
  have hfb : ∀ s, Json.parse (cleanAnalysis s) = none →
      parsedAnalysis s = fallbackAnalysis := by
    intro s h
    unfold parsedAnalysis
    rw [h]
    rfl
  refine ⟨hfb, ?_⟩
  intro w rt a rtext ha hr hg h
  have hok : mkUpdateData a (jobOf w a) (parsedAnalysis (pyStrip w.llmOutput)) =
      .ok ⟨a.student_id, 50, Json.str "Medium", Json.arr [Json.str "Resume submitted"],
        Json.arr [Json.str "Unable to analyze"], Json.arr [], Json.arr [], Json.arr [],
        Json.str "Unknown", Json.str "Unable to analyze resume", (jobOf w a).title⟩ := by
    rw [hfb _ h]
    rfl
  rw [evaluate_step_ok w rt a rtext _ ha hr hg hok, hfb _ h]
  rfl

/-- C2 witness: the pipeline applied to the concrete request whose
generator answers `"not json"`. -/
theorem c2_decode_failure_fallback_witness :
    (evaluate_application c2World none).1 = EvalResult.ok (Json.int 50) (Json.str "Medium") :=
  c2_decode_failure_fallback.2 c2World none appRow "resume" rfl rfl rfl (by rfl)

/-! ### Claim C8: which states can fail the pipeline -/

/-- C10: the pipeline performs at most one write to the stored application,
and whenever it returns `{ok: false, error}` it has performed none — every
fatal exit precedes the single persist step. -/
theorem c10_atomic_persist (w : EvalWorld) (rt : Option String) :
    ((evaluate_application w rt).1.isOkB = false → (evaluate_application w rt).2 = []) ∧
    (evaluate_application w rt).2.length ≤ 1 := by
  cases happ : w.app? with
  | none =>
    rw [evaluate_none w rt happ]
    simp
  | some a =>
    cases hr : resumeTextOf w rt with
    | error e =>
      rw [evaluate_extract_err w rt a e happ hr]
      simp
    | ok rtext =>
      cases hg : w.groqConfigured with
      | false =>
        rw [evaluate_noclient w rt a rtext happ hr hg]
        simp
      | true =>
        cases hmk : mkUpdateData a (jobOf w a) (parsedAnalysis (pyStrip w.llmOutput)) with
        | error e =>
          rw [evaluate_step_err w rt a rtext e happ hr hg hmk]
          simp
        | ok ud =>
          rw [evaluate_step_ok w rt a rtext ud happ hr hg hmk]
          simp [EvalResult.isOkB]

/-- C10 witness: a failing request (missing application) writes nothing. -/
theorem c10_atomic_persist_witness :
    (evaluate_application c10World none).2 = [] ∧
    (evaluate_application c10World none).2.length ≤ 1 :=
  ⟨(c10_atomic_persist c10World none).1 rfl, (c10_atomic_persist c10World none).2⟩

/-! ### Claim C9: idempotence of the SQL normalisation

The proof follows the shape of the source computation: after the two
`replace(..., '')` passes no occurrence of the fence markers survives, so a
second pass removes nothing, and stripping is idempotent. -/

/-- Boolean prefix test, characterised. -/
theorem isPrefixOf_iff_ex (p l : List Char) :
    p.isPrefixOf l = true ↔ ∃ t, l = p ++ t := by
  induction p generalizing l with
  | nil => simp [List.isPrefixOf]
  | cons a as ih =>
    cases l with
    | nil => simp [List.isPrefixOf]
    | cons b bs =>
      simp only [List.isPrefixOf, Bool.and_eq_true, beq_iff_eq, ih, List.cons_append,
        List.cons.injEq]
      constructor
      · rintro ⟨rfl, t, rfl⟩
        exact ⟨t, rfl, rfl⟩
      · rintro ⟨t, rfl, rfl⟩
        exact ⟨rfl, t, rfl⟩

/-- The result of `pyRemoveF` does not depend on the fuel, as long as the
fuel covers the length of the input. -/
theorem pyRemoveF_congr (pat : List Char) :
    ∀ f1 f2 (l : List Char), l.length ≤ f1 → l.length ≤ f2 →
      pyRemoveF pat f1 l = pyRemoveF pat f2 l := by
  intro f1
  induction f1 with
  | zero =>
    intro f2 l h1 h2
    cases l with
    | nil => cases f2 <;> rfl
    | cons c rest => exact absurd h1 (by simp)
  | succ n ih =>
    intro f2 l h1 h2
    cases l with
    | nil => cases f2 <;> rfl
    | cons c rest =>
      cases f2 with
      | zero => exact absurd h2 (by simp)
      | succ m =>
        show (if pat.isPrefixOf (c :: rest) then
            pyRemoveF pat n (rest.drop (pat.length - 1))
          else c :: pyRemoveF pat n rest) =
          (if pat.isPrefixOf (c :: rest) then
            pyRemoveF pat m (rest.drop (pat.length - 1))
          else c :: pyRemoveF pat m rest)
        by_cases hp : pat.isPrefixOf (c :: rest) = true
        · simp only [hp, if_true]
          simp only [List.length_cons] at h1 h2
          refine ih m _ ?_ ?_ <;>
            simp only [List.length_drop] <;> omega
        · simp only [Bool.not_eq_true] at hp
          simp only [hp, Bool.false_eq_true, if_false]
          have h1' : rest.length ≤ n := by simpa using h1
          have h2' : rest.length ≤ m := by simpa using h2
          rw [ih m rest h1' h2']

/-- One-step unfolding of `pyRemove` on a nonempty list. -/
theorem pyRemove_cons (pat : List Char) (c : Char) (rest : List Char) :
    pyRemove pat (c :: rest) =
      if pat.isPrefixOf (c :: rest) then pyRemove pat (rest.drop (pat.length - 1))
      else c :: pyRemove pat rest := by
  show (if pat.isPrefixOf (c :: rest) then
      pyRemoveF pat rest.length (rest.drop (pat.length - 1))
    else c :: pyRemoveF pat rest.length rest) = _
  by_cases hp : pat.isPrefixOf (c :: rest) = true
  · simp only [hp, if_true]
    exact pyRemoveF_congr pat _ _ _ (by simp only [List.length_drop]; omega) le_rfl
  · simp only [Bool.not_eq_true] at hp
    simp only [hp, Bool.false_eq_true, if_false]
    rfl

/-- A nonempty pattern does not occur in the empty list. -/
theorem not_occursIn_nil (pat : List Char) (hp : pat ≠ []) : ¬ occursIn pat [] := by
  rintro ⟨u, v, h⟩
  have := h.symm
  simp only [List.append_assoc, List.append_eq_nil] at this
  exact hp this.2.1

/-- An occurrence in the tail is an occurrence. -/
theorem occursIn_cons (pat : List Char) (c : Char) (rest : List Char)
    (h : occursIn pat rest) : occursIn pat (c :: rest) := by
  obtain ⟨u, v, rfl⟩ := h
  exact ⟨c :: u, v, rfl⟩

/-- An occurrence survives being placed in any surrounding context. -/
theorem occursIn_context (pat a x b : List Char) (h : occursIn pat x) :
    occursIn pat (a ++ x ++ b) := by
  obtain ⟨u, v, rfl⟩ := h
  exact ⟨a ++ u, v ++ b, by simp⟩

/-- Removal is the identity on lists in which the pattern does not occur. -/
theorem pyRemove_of_not_occurs (pat : List Char) :
    ∀ l, ¬ occursIn pat l → pyRemove pat l = l := by
  intro l
  induction l with
  | nil => intro _; rfl
  | cons c rest ih =>
    intro hno
    rw [pyRemove_cons]
    have hpre : pat.isPrefixOf (c :: rest) = false := by
      by_contra hcon
      simp only [Bool.not_eq_false] at hcon
      obtain ⟨t, ht⟩ := (isPrefixOf_iff_ex _ _).mp hcon
      exact hno ⟨[], t, by simp [ht]⟩
    simp only [hpre, Bool.false_eq_true, if_false]
    rw [ih (fun h => hno (occursIn_cons _ _ _ h))]

/-- Leading-run length of `b` starting with `b` itself. -/
theorem leadRun_cons_self (b : Char) (l : List Char) :
    leadRun b (b :: l) = leadRun b l + 1 := by
  simp [leadRun, List.takeWhile_cons]

/-- Leading-run length of `b` starting with a different character. -/
theorem leadRun_cons_ne (b c : Char) (l : List Char) (h : c ≠ b) :
    leadRun b (c :: l) = 0 := by
  simp [leadRun, List.takeWhile_cons, h]

/-- A list that `[b, b]` does not begin has a leading `b`-run of at most
one. -/
theorem leadRun_le_one (b : Char) (rest : List Char)
    (h : [b, b].isPrefixOf rest = false) : leadRun b rest ≤ 1 := by
  cases rest with
  | nil => exact Nat.zero_le 1
  | cons r1 rs =>
    by_cases h1 : r1 = b
    · rw [h1] at h ⊢
      simp only [List.isPrefixOf, beq_self_eq_true, Bool.true_and] at h
      cases rs with
      | nil =>
        rw [leadRun_cons_self]
        exact le_refl 1
      | cons r2 rs2 =>
        have h2 : r2 ≠ b := by
          intro hr
          rw [hr] at h
          simp [List.isPrefixOf] at h
        rw [leadRun_cons_self, leadRun_cons_ne _ _ _ h2]
    · simp [leadRun_cons_ne _ _ _ h1]

/-- Core invariant of the fence-marker removal: removing all occurrences of
a three-character run pattern leaves no occurrence of it, and never makes
the leading run longer. -/
theorem pyRemove_triple (b : Char) :
    ∀ n (l : List Char), l.length ≤ n →
      (¬ occursIn [b, b, b] (pyRemove [b, b, b] l)) ∧
      ([b, b, b].isPrefixOf l = false →
        leadRun b (pyRemove [b, b, b] l) ≤ leadRun b l) := by
  intro n
  induction n with
  | zero =>
    intro l hl
    have hnil : l = [] := by
      cases l with
      | nil => rfl
      | cons c rest => exact absurd hl (by simp)
    subst hnil
    exact ⟨not_occursIn_nil _ (by simp), fun _ => le_rfl⟩
  | succ n ih =>
    intro l hl
    cases l with
    | nil => exact ⟨not_occursIn_nil _ (by simp), fun _ => le_rfl⟩
    | cons c rest =>
      simp only [List.length_cons] at hl
      rw [pyRemove_cons]
      cases hp : [b, b, b].isPrefixOf (c :: rest) with
      | true =>
        simp only [if_true]
        constructor
        · exact (ih (rest.drop ([b, b, b].length - 1))
            (by simp only [List.length_drop]; omega)).1
        · intro hfalse
          simp at hfalse
      | false =>
        simp only [Bool.false_eq_true, if_false]
        have hrest : rest.length ≤ n := by omega
        obtain ⟨ih1, ih2⟩ := ih rest hrest
        by_cases hc : c = b
        · subst hc
          simp only [List.isPrefixOf, beq_self_eq_true, Bool.true_and] at hp
          have hlead1 : leadRun c rest ≤ 1 := leadRun_le_one c rest hp
          have hp3 : [c, c, c].isPrefixOf rest = false := by
            by_contra hcon
            simp only [Bool.not_eq_false] at hcon
            obtain ⟨t, ht⟩ := (isPrefixOf_iff_ex _ _).mp hcon
            subst ht
            simp [List.isPrefixOf] at hp
          have hmono : leadRun c (pyRemove [c, c, c] rest) ≤ leadRun c rest := ih2 hp3
          have hleadR : leadRun c (pyRemove [c, c, c] rest) ≤ 1 :=
            le_trans hmono hlead1
          constructor
          · rintro ⟨u, v, heq⟩
            cases u with
            | nil =>
              have heq2 : pyRemove [c, c, c] rest = c :: c :: v := by
                simpa using heq
              have hge : 2 ≤ leadRun c (pyRemove [c, c, c] rest) := by
                rw [heq2, leadRun_cons_self, leadRun_cons_self]
                omega
              omega
            | cons w u2 =>
              simp only [List.cons_append, List.cons.injEq] at heq
              exact ih1 ⟨u2, v, heq.2⟩
          · intro _
            rw [leadRun_cons_self, leadRun_cons_self]
            omega
        · constructor
          · rintro ⟨u, v, heq⟩
            cases u with
            | nil =>
              simp only [List.nil_append, List.cons_append, List.cons.injEq] at heq
              exact hc heq.1
            | cons w u2 =>
              simp only [List.cons_append, List.cons.injEq] at heq
              exact ih1 ⟨u2, v, heq.2⟩
          · intro _
            rw [leadRun_cons_ne _ _ _ hc]
            exact Nat.zero_le _

/-- `dropWhile` removes an initial segment. -/
theorem dropWhile_ex (p : Char → Bool) (l : List Char) :
    ∃ w, l = w ++ l.dropWhile p := by
  induction l with
  | nil => exact ⟨[], rfl⟩
  | cons c rest ih =>
    by_cases hc : p c = true
    · obtain ⟨w, hw⟩ := ih
      refine ⟨c :: w, ?_⟩
      rw [List.dropWhile_cons_of_pos hc]
      simpa using hw
    · simp only [Bool.not_eq_true] at hc
      refine ⟨[], ?_⟩
      rw [List.dropWhile_cons_of_neg (by simp [hc]), List.nil_append]

/-- The head surviving `dropWhile` fails the predicate. -/
theorem dropWhile_head_false (p : Char → Bool) (l : List Char) (c : Char)
    (t : List Char) (h : l.dropWhile p = c :: t) : p c = false := by
  induction l with
  | nil => simp at h
  | cons a rest ih =>
    by_cases ha : p a = true
    · rw [List.dropWhile_cons_of_pos ha] at h
      exact ih h
    · simp only [Bool.not_eq_true] at ha
      rw [List.dropWhile_cons_of_neg (by simp [ha])] at h
      injection h with h1 h2
      rw [← h1]
      exact ha

/-- `dropWhile` is idempotent. -/
theorem dropWhile_dropWhile (p : Char → Bool) (l : List Char) :
    List.dropWhile p (List.dropWhile p l) = List.dropWhile p l := by
  cases h : List.dropWhile p l with
  | nil => rfl
  | cons c t =>
    have hc : p c = false := dropWhile_head_false p l c t h
    rw [List.dropWhile_cons_of_neg (by simp [hc])]

/-- Stripping is idempotent. -/
theorem trimChars_idem (l : List Char) : trimChars (trimChars l) = trimChars l := by
  have hstep : List.dropWhile pws (trimChars l) = trimChars l := by
    cases hz : trimChars l with
    | nil => rfl
    | cons c t =>
      have hc : pws c = false := by
        obtain ⟨w2, hw2⟩ := dropWhile_ex pws (List.dropWhile pws l).reverse
        have hy : List.dropWhile pws l = trimChars l ++ w2.reverse := by
          have hrev := congrArg List.reverse hw2
          simpa [trimChars] using hrev
        rw [hz] at hy
        exact dropWhile_head_false pws l c _ hy
      rw [List.dropWhile_cons_of_neg (by simp [hc])]
  calc trimChars (trimChars l)
      = (((trimChars l).dropWhile pws).reverse.dropWhile pws).reverse := rfl
    _ = ((trimChars l).reverse.dropWhile pws).reverse := by rw [hstep]
    _ = ((((l.dropWhile pws).reverse.dropWhile pws).reverse.reverse).dropWhile pws).reverse := rfl
    _ = (((l.dropWhile pws).reverse.dropWhile pws).dropWhile pws).reverse := by
        rw [List.reverse_reverse]
    _ = ((l.dropWhile pws).reverse.dropWhile pws).reverse := by rw [dropWhile_dropWhile]
    _ = trimChars l := rfl

/-- An occurrence inside the stripped list is an occurrence. -/
theorem occursIn_trim (pat l : List Char) (h : occursIn pat (trimChars l)) :
    occursIn pat l := by
  obtain ⟨w, hw⟩ := dropWhile_ex pws l
  obtain ⟨w2, hw2⟩ := dropWhile_ex pws (List.dropWhile pws l).reverse
  have hy : List.dropWhile pws l = trimChars l ++ w2.reverse := by
    have hrev := congrArg List.reverse hw2
    simpa [trimChars] using hrev
  have h2 := occursIn_context pat w (trimChars l) w2.reverse h
  rw [List.append_assoc, ← hy, ← hw] at h2
  exact h2

/-- C9: the SQL normalisation — remove every occurrence of the two fence
markers (triple backtick followed by `sql`, and the bare triple backtick),
then strip surrounding whitespace — is idempotent: applying it twice
yields the same string as applying it once. -/
theorem c9_normalize_idempotent (s : String) : normSql (normSql s) = normSql s := by
  have key : ∀ l : List Char,
      trimChars (pyRemove ("```".data) (pyRemove ("```sql".data)
        (trimChars (pyRemove ("```".data) (pyRemove ("```sql".data) l))))) =
      trimChars (pyRemove ("```".data) (pyRemove ("```sql".data) l)) := by
    intro l
    have e3 : "```".data = [btick, btick, btick] := rfl
    have h3 : ¬ occursIn ("```".data)
        (pyRemove ("```".data) (pyRemove ("```sql".data) l)) := by
      rw [e3]
      exact (pyRemove_triple btick (pyRemove ("```sql".data) l).length
        (pyRemove ("```sql".data) l) le_rfl).1
    have hn3 : ¬ occursIn ("```".data)
        (trimChars (pyRemove ("```".data) (pyRemove ("```sql".data) l))) :=
      fun h => h3 (occursIn_trim _ _ h)
    have hn6 : ¬ occursIn ("```sql".data)
        (trimChars (pyRemove ("```".data) (pyRemove ("```sql".data) l))) := by
      rintro ⟨u, v, hocc⟩
      refine hn3 ⟨u, 's' :: 'q' :: 'l' :: v, ?_⟩
      rw [hocc, List.append_assoc, List.append_assoc]
      rfl
    rw [pyRemove_of_not_occurs _ _ hn6, pyRemove_of_not_occurs _ _ hn3]
    exact trimChars_idem _
  exact congrArg String.mk (key s.data)

/-- C9 witness: the idempotence applied to a concrete fenced response. -/
theorem c9_normalize_idempotent_witness :
    normSql (normSql " ```sql SELECT id FROM jobs``` ") =
      normSql " ```sql SELECT id FROM jobs``` " :=
  c9_normalize_idempotent " ```sql SELECT id FROM jobs``` "
